import Mathlib

/-!
Shallow embedding of `src/src/nix.rs` (json-ipc-server): the connection
read/write state machine (`SocketConnection.readable` / `writable`), the
bounded connection table (`Slab`), the accept and dispatch logic
(`RpcServer.accept`, `RpcServer.ready`) and the server lifecycle flags
(`run_async`, `stop_async`, `stop`).

Byte buffers (`Vec<u8>`, `MutByteBuf`) are modelled as `List Nat`; request
and response texts (Rust `String`) are likewise byte lists, since the
source converts between them with identity on the byte content.  The OS
socket handles carry no data relevant to the claims and are omitted; the
outcomes of the fallible socket calls (`try_read_buf`, `write_all`) are
supplied as explicit inputs.
-/

namespace JsonIpc

/-- `const MAX_CONCURRENT_CONNECTIONS: usize = 1024`. -/
def MAX_CONCURRENT_CONNECTIONS : Nat := 1024

/-- `const MAX_WRITE_LENGTH: usize = 8192`. -/
def MAX_WRITE_LENGTH : Nat := 8192

/-- `const REQUEST_CHUNK_SIZE: usize = 4096` (scratch-buffer capacity; the
capacity itself does not affect the values computed, only allocation). -/
def REQUEST_CHUNK_SIZE : Nat := 4096

/-- A byte of a buffer (`u8`). -/
abbrev Byte := Nat

/-- `mio::Token`, an index into the slab; `Token(0)` is the server. -/
abbrev Token := Nat

/-- `const SERVER: Token = Token(0)`. -/
def SERVER : Token := 0

/-- `mio::EventSet` restricted to the three flags the source uses. -/
structure EventSet where
  readable : Bool
  writable : Bool
  hup : Bool
deriving DecidableEq

/-- `EventSet::readable()`. -/
def EventSet.readableSet : EventSet := ⟨true, false, false⟩

/-- `EventSet::writable()`. -/
def EventSet.writableSet : EventSet := ⟨false, true, false⟩

/-- `EventSet::hup()`. -/
def EventSet.hupSet : EventSet := ⟨false, false, true⟩

/-- `EventSet::insert` (set union on flags). -/
def EventSet.insert (a b : EventSet) : EventSet :=
  ⟨a.readable || b.readable, a.writable || b.writable, a.hup || b.hup⟩

/-- `EventSet::remove` (set difference on flags). -/
def EventSet.remove (a b : EventSet) : EventSet :=
  ⟨a.readable && !b.readable, a.writable && !b.writable, a.hup && !b.hup⟩

/-- The state of one `SocketConnection` (the socket handle and the reusable
read scratch buffer carry no claim-relevant data and are omitted). -/
structure SocketConnection where
  write_buf : Option (List Byte)
  token : Option Token
  interest : EventSet
  request : List Byte
deriving DecidableEq

/-- `SocketConnection::new`. -/
def SocketConnection.new : SocketConnection :=
  { write_buf := none
    token := none
    interest := EventSet.hupSet
    request := [] }

/-- The `IoHandler` collaborator: `handle_request_sync` maps one request
text to an optional response text (`None` for notifications). -/
abbrev Handler := List Byte → Option (List Byte)

/-- The `validator::extract_requests` collaborator: raw bytes to the list of
complete request texts plus `last_index`, the index of the last consumed
byte (the source drains `..= last_index`, i.e. `last_index + 1` bytes). -/
abbrev Extract := List Byte → List (List Byte) × Nat

/-- Outcome of `self.socket.try_read_buf(&mut self.read_buf)`: would-block
(`Ok(None)`), `n` bytes read into the scratch buffer (`Ok(Some(n))`, the
bytes given explicitly), or a genuine I/O error (`Err(e)`). -/
inductive ReadResult where
  | wouldBlock
  | bytesRead (bytes : List Byte)
  | ioError
deriving DecidableEq

/-- Outcome of `self.socket.write_all(..)`: success or a genuine I/O error. -/
inductive WriteResult where
  | ok
  | ioError
deriving DecidableEq

/-- The `for rpc_msg in requests` loop of `SocketConnection::readable`:
returns the list of requests passed to `handler.handle_request_sync` (in
loop order) and the accumulated `response_bytes`. -/
def batchLoop (handler : Handler) : List (List Byte) → List (List Byte) × List Byte
  | [] => ([], [])
  | rpc_msg :: rest =>
    let response := handler rpc_msg
    let r := batchLoop handler rest
    match response with
    | some response_str => (rpc_msg :: r.1, response_str ++ r.2)
    | none => (rpc_msg :: r.1, r.2)

/-- `SocketConnection::readable` (lines 101-139), minus the final
`event_loop.reregister` call, which is modelled at the dispatch level.
Returns the new connection state and the list of requests dispatched to
the handler during this event. -/
def SocketConnection.readable (extract : Extract) (handler : Handler)
    (c : SocketConnection) (r : ReadResult) : SocketConnection × List (List Byte) :=
  match r with
  | .wouldBlock => (c, [])
  | .bytesRead bytes =>
    let request := c.request ++ bytes
    let er := extract request
    let requests := er.1
    let last_index := er.2
    if requests.length > 0 then
      let br := batchLoop handler requests
      let left_over := request.drop (last_index + 1)
      ({ c with
          write_buf := some br.2
          request := left_over
          interest := (c.interest.remove EventSet.readableSet).insert EventSet.writableSet },
        br.1)
    else
      ({ c with
          request := request
          interest := c.interest.insert EventSet.readableSet },
        [])
  | .ioError =>
    ({ c with interest := c.interest.remove EventSet.readableSet }, [])

/-- `SocketConnection::writable` (lines 85-99), minus the final
`reregister`.  `self.write_buf.take()` runs before the fallible
`write_all`, so on an `Err` early return (`try!`) the buffer is already
gone; the `Except.error` payload is the connection state at that early
return.  On success, returns the new state and the bytes written. -/
def SocketConnection.writable (c : SocketConnection) (wr : WriteResult) :
    Except SocketConnection (SocketConnection × List Byte) :=
  match c.write_buf with
  | some buf =>
    if buf.length < MAX_WRITE_LENGTH then
      match wr with
      | .ok =>
        .ok ({ c with
                write_buf := none
                interest := (c.interest.remove EventSet.writableSet).insert EventSet.readableSet },
              buf)
      | .ioError => .error { c with write_buf := none }
    else
      match wr with
      | .ok =>
        .ok ({ c with write_buf := some (buf.drop MAX_WRITE_LENGTH) },
              buf.take MAX_WRITE_LENGTH)
      | .ioError => .error { c with write_buf := none }
  | none => .ok (c, [])

/-- `slab::Slab<SocketConnection, Token>` created by
`Slab::new_starting_at(Token(1), MAX_CONCURRENT_CONNECTIONS)`: a fixed
number of slots; slot `i` of the list is addressed by `Token (i+1)`. -/
structure Slab where
  slots : List (Option SocketConnection)
deriving DecidableEq

/-- `Slab::new_starting_at(Token(1), MAX_CONCURRENT_CONNECTIONS)`. -/
def Slab.new : Slab := ⟨List.replicate MAX_CONCURRENT_CONNECTIONS none⟩

/-- `Slab::count`: number of live entries. -/
def Slab.count (s : Slab) : Nat := (s.slots.filter Option.isSome).length

/-- Index of the first free slot, if any (slab allocation order). -/
def firstFree : List (Option SocketConnection) → Option Nat
  | [] => none
  | none :: _ => some 0
  | some _ :: rest => (firstFree rest).map Nat.succ

/-- `Slab::insert`: place the connection in the first free slot and return
its token (`Ok(token)`), or fail when full (`Err`). -/
def Slab.insert (s : Slab) (c : SocketConnection) : Option (Slab × Token) :=
  match firstFree s.slots with
  | some i => some (⟨s.slots.set i (some c)⟩, i + 1)
  | none => none

/-- `self.connections[token]` as a total lookup (`none` when the slot is
empty or the token out of range; the source would panic there). -/
def Slab.get (s : Slab) (t : Token) : Option SocketConnection :=
  if t = 0 then none else (s.slots.getD (t - 1) none)

/-- Store a connection at an existing token (`self.connections[token] = ..`
style in-place mutation). -/
def Slab.setTok (s : Slab) (t : Token) (c : SocketConnection) : Slab :=
  ⟨s.slots.set (t - 1) (some c)⟩

/-- `Slab::remove`: free the slot (idempotent; out-of-range is a no-op). -/
def Slab.remove (s : Slab) (t : Token) : Slab :=
  ⟨s.slots.set (t - 1) none⟩

/-- The mutable state of `RpcServer` (the listening socket and the shared
`io_handler` are parameters of the operations, not data). -/
structure RpcServer where
  connections : Slab
  tokens : List Token
deriving DecidableEq

/-- `RpcServer::start`: fresh slab, empty auxiliary token queue (the
listening-socket registration is part of the reactor environment). -/
def RpcServer.start : RpcServer :=
  { connections := Slab.new, tokens := [] }

/-- What `RpcServer::accept` did with the accepted socket.
`closedWithoutResponse`: the freshly built `SocketConnection` went out of
scope without being inserted or registered — its `UnixStream` is dropped,
closing the descriptor, and no byte was ever written to it.
`registered t`: inserted at slot `t` and registered for readable interest.
`insertFailed`: the `expect` on `Slab::insert` fired (shown unreachable
when the capacity check passed). -/
inductive AcceptEffect where
  | closedWithoutResponse
  | registered (t : Token)
  | insertFailed
deriving DecidableEq

/-- `RpcServer::accept` (lines 262-283): accept the socket, build a
connection, reject by close when at capacity, otherwise insert, remember
the token in the FIFO queue, store the token inside the connection, and
register it readable (edge | oneshot). -/
def RpcServer.accept (st : RpcServer) : RpcServer × AcceptEffect :=
  let connection := SocketConnection.new
  if st.connections.count ≥ MAX_CONCURRENT_CONNECTIONS then
    (st, .closedWithoutResponse)
  else
    match st.connections.insert connection with
    | some (slab1, token) =>
      let slab2 := slab1.setTok token { connection with token := some token }
      ({ connections := slab2, tokens := st.tokens ++ [token] }, .registered token)
    | none => (st, .insertFailed)

/-- `RpcServer::drop_connection`. -/
def RpcServer.drop_connection (st : RpcServer) (tok : Token) : RpcServer :=
  { st with connections := st.connections.remove tok }

/-- The environment's answers to the socket calls a single `ready`
dispatch may make. -/
structure Oracle where
  read : ReadResult
  write : WriteResult
deriving DecidableEq

/-- `Handler::ready` for `RpcServer` (lines 310-335): readable phase
(server token → `accept`, client token → `connection_readable`), then hup
phase (client token → `drop_connection`), then writable phase (client
token → `connection_writable`, its `io::Result` discarded by
`unwrap_or_else(|_| {})` — the source marks this `todo: disqualify
connection from list on error`).  Lookups the source would panic on
(missing token) leave the state unchanged. -/
def RpcServer.readyReadable (extract : Extract) (handler : Handler) (st : RpcServer)
    (token : Token) (events : EventSet) (env : Oracle) : RpcServer :=
  if events.readable then
    if token = SERVER then (st.accept).1
    else
      match st.connections.get token with
      | some c =>
        let rc := c.readable extract handler env.read
        { st with connections := st.connections.setTok token rc.1 }
      | none => st
  else st

def RpcServer.readyHup (st : RpcServer) (token : Token) (events : EventSet) : RpcServer :=
  if events.hup then
    if token = SERVER then st else st.drop_connection token
  else st

def RpcServer.readyWritable (st : RpcServer) (token : Token) (events : EventSet)
    (env : Oracle) : RpcServer :=
  if events.writable then
    if token = SERVER then st
    else
      match st.connections.get token with
      | some c =>
        match c.writable env.write with
        | .ok cw => { st with connections := st.connections.setTok token cw.1 }
        | .error cerr => { st with connections := st.connections.setTok token cerr }
      | none => st
  else st

def RpcServer.ready (extract : Extract) (handler : Handler) (st : RpcServer)
    (token : Token) (events : EventSet) (env : Oracle) : RpcServer :=
  (((st.readyReadable extract handler token events env).readyHup
      token events).readyWritable token events env)

/-- The two atomic lifecycle flags of `Server`. -/
structure LifecycleFlags where
  is_stopping : Bool
  is_stopped : Bool
deriving DecidableEq

/-- Flags of a freshly constructed `Server` (`is_stopping = false`,
`is_stopped = true`). -/
def LifecycleFlags.new : LifecycleFlags :=
  { is_stopping := false, is_stopped := true }

/-- The `Error` enum (the `Io` payload is irrelevant to the lifecycle
claims and omitted). -/
inductive LcError where
  | ioFailure
  | notStarted
  | alreadyStopping
  | notStopped
  | isStopping
deriving DecidableEq

instance : DecidableEq (Except LcError Unit) := fun a b =>
  match a, b with
  | .ok (), .ok () => isTrue rfl
  | .error x, .error y =>
    match decEq x y with
    | isTrue h => isTrue (by rw [h])
    | isFalse h => isFalse (fun hh => h (Except.error.inj hh))
  | .ok _, .error _ => isFalse (fun hh => Except.noConfusion hh)
  | .error _, .ok _ => isFalse (fun hh => Except.noConfusion hh)

/-- `Server::run_async` (lines 201-220) as its effect on the flags: the two
precondition checks, then `is_stopped.store(false)`; the spawned worker's
later `is_stopped.store(true)` is `workerExit` below. -/
def run_async (f : LifecycleFlags) : Except LcError Unit × LifecycleFlags :=
  if f.is_stopping then (.error .isStopping, f)
  else if !f.is_stopped then (.error .notStopped, f)
  else (.ok (), { f with is_stopped := false })

/-- The worker thread observing `is_stopping` and leaving its loop:
`thread_stopped.store(true)`. -/
def workerExit (f : LifecycleFlags) : LifecycleFlags :=
  { f with is_stopped := true }

/-- `Server::stop_async` (lines 222-227). -/
def stop_async (f : LifecycleFlags) : Except LcError Unit × LifecycleFlags :=
  if f.is_stopped then (.error .notStarted, f)
  else if f.is_stopping then (.error .alreadyStopping, f)
  else (.ok (), { f with is_stopping := true })

/-- `Server::stop` (lines 229-235): the same checks, then
`is_stopping.store(true)` followed by the blocking wait for `is_stopped`;
a successful return means the worker has run `workerExit`, so the flags a
caller observes afterwards are those after `workerExit`. -/
def stop (f : LifecycleFlags) : Except LcError Unit × LifecycleFlags :=
  if f.is_stopped then (.error .notStarted, f)
  else if f.is_stopping then (.error .alreadyStopping, f)
  else (.ok (), workerExit { f with is_stopping := true })

/-- Modelled from the spec: the message-extraction collaborator
`validator::extract_requests` is not part of this source file; §6 only
gives its contract ("must never claim to consume bytes belonging to an
incomplete message, must be idempotent when re-invoked with the same
unconsumed suffix, must return an empty sequence when no complete message
is yet present").  We model a wire framing by a boundary function:
`frame s = some n` means the first complete message of `s` occupies its
first `n` bytes; `frame s = none` means no complete message is present at
the front yet.  `frame_stable` states that completeness of a message is
decided by its own bytes, so later-arriving bytes can never change it —
the formal content of "never consume bytes of an incomplete message". -/
structure Framing where
  frame : List Byte → Option Nat
  frame_pos : ∀ s n, frame s = some n → 1 ≤ n ∧ n ≤ s.length
  frame_stable : ∀ s t n, frame s = some n → frame (s ++ t) = some n

/-- Modelled from the spec: greedy extraction over a framing — peel
complete messages off the front while `frame` finds one; returns the
messages in order and the total number of consumed bytes. -/
def extractFrom (F : Framing) (s : List Byte) : List (List Byte) × Nat :=
  match h : F.frame s with
  | none => ([], 0)
  | some n =>
    let r := extractFrom F (s.drop n)
    (s.take n :: r.1, n + r.2)
termination_by s.length
decreasing_by
  have hp := F.frame_pos s n h
  simp only [List.length_drop]
  omega

/-- Modelled from the spec: adapter to the `(requests, last_index)`
convention of `validator::extract_requests` — the source drains
`..last_index + 1`, i.e. `last_index` is the consumed byte count minus
one (unused by the source when the request list is empty). -/
def Framing.extract_requests (F : Framing) : Extract :=
  fun s => let r := extractFrom F s; (r.1, r.2 - 1)

/-- Successive readable events on one connection, each delivering one
piece of data: the final connection state and the concatenated dispatch
trace. -/
def readMany (extract : Extract) (handler : Handler)
    (c : SocketConnection) (pieces : List (List Byte)) :
    SocketConnection × List (List Byte) :=
  match pieces with
  | [] => (c, [])
  | piece :: rest =>
    let rc := c.readable extract handler (.bytesRead piece)
    let rr := readMany extract handler rc.1 rest
    (rr.1, rc.2 ++ rr.2)

/-- The successive chunks `SocketConnection::writable` offers to
`write_all` when draining a buffer: full `MAX_WRITE_LENGTH` chunks while
the buffer is at least that long, then the remainder. -/
def writeChunks (buf : List Byte) : List (List Byte) :=
  if buf.length < MAX_WRITE_LENGTH then [buf]
  else buf.take MAX_WRITE_LENGTH :: writeChunks (buf.drop MAX_WRITE_LENGTH)
termination_by buf.length
decreasing_by
  simp only [List.length_drop]
  simp only [MAX_WRITE_LENGTH] at *
  omega

/-- `n` successive writable events with every `write_all` succeeding:
the chunks written (in order) and the final connection state. -/
def drainSteps (c : SocketConnection) : Nat → List (List Byte) × SocketConnection
  | 0 => ([], c)
  | n + 1 =>
    match c.writable WriteResult.ok with
    | .ok cw =>
      let r := drainSteps cw.1 n
      (cw.2 :: r.1, r.2)
    | .error cerr => ([], cerr)

/-- The invariant of claim C10: every connection stored in the table
carries `token = some` of the slot it occupies. -/
def TokenOk (st : RpcServer) : Prop :=
  ∀ t c, st.connections.get t = some c → c.token = some t
/-- The states the dispatch loop can reach: the freshly started server,
then any sequence of readiness events with arbitrary environment
responses. -/
inductive Reachable (extract : Extract) (handler : Handler) : RpcServer → Prop where
  | init : Reachable extract handler RpcServer.start
  | step (st : RpcServer) (token : Token) (events : EventSet) (env : Oracle) :
      Reachable extract handler st →
      Reachable extract handler (st.ready extract handler token events env)
/-! ## Concrete collaborators and states used in witnesses -/

/-- A trivial extraction collaborator: never finds a complete message. -/
def ex0 : Extract := fun _ => ([], 0)

/-- A handler treating every request as a notification. -/
def hand0 : Handler := fun _ => none

/-- An extraction collaborator recognising exactly the buffer `[9]` as one
complete one-byte message. -/
def exN : Extract := fun s => if s = [9] then ([[9]], 0) else ([], 0)

/-- An extraction collaborator recognising the buffer `[1, 2]` as two
complete one-byte messages. -/
def exW : Extract := fun s => if s = [1, 2] then ([[1], [2]], 1) else ([], 0)

/-- A handler answering `[7, 8]` to the request `[1]` and treating every
other request as a notification. -/
def handW : Handler := fun m => if m = [1] then some [7, 8] else none

/-- A server whose table is entirely full. -/
def fullServer : RpcServer :=
  { connections := ⟨List.replicate MAX_CONCURRENT_CONNECTIONS (some SocketConnection.new)⟩
    tokens := [] }

/-- The server right after its first accept. -/
def acceptedServer : RpcServer :=
  RpcServer.start.ready ex0 hand0 SERVER ⟨true, false, false⟩
    { read := .wouldBlock, write := .ok }

/-- A registered connection with a small pending write buffer, awaiting
writable. -/
def connW : SocketConnection :=
  { write_buf := some [1, 2, 3]
    token := some 1
    interest := ⟨false, true, true⟩
    request := [] }

/-- A server holding `connW` at slot 1. -/
def stW : RpcServer :=
  { connections := ⟨(List.replicate MAX_CONCURRENT_CONNECTIONS none).set 0 (some connW)⟩
    tokens := [1] }

/-- A registered connection awaiting readable. -/
def connR : SocketConnection :=
  { write_buf := none
    token := some 1
    interest := ⟨true, false, true⟩
    request := [] }

/-- A server holding `connR` at slot 1. -/
def stR : RpcServer :=
  { connections := ⟨(List.replicate MAX_CONCURRENT_CONNECTIONS none).set 0 (some connR)⟩
    tokens := [1] }

/-- A buffer one byte longer than the write-chunk bound. -/
def bigBuf : List Byte := List.replicate (MAX_WRITE_LENGTH + 1) 0

/-- A registered connection with `bigBuf` pending, awaiting writable. -/
def chunkyConn : SocketConnection :=
  { write_buf := some bigBuf
    token := some 1
    interest := ⟨false, true, true⟩
    request := [] }

/-! ## Helper lemmas -/

theorem getD_set (l : List α) (i j : Nat) (x d : α) :
    (l.set i x).getD j d = if i = j ∧ i < l.length then x else l.getD j d := by
  induction l generalizing i j with
  | nil => simp
  | cons a as ih =>
    cases i with
    | zero =>
      cases j with
      | zero => simp
      | succ m => simp
    | succ n =>
      cases j with
      | zero => simp
      | succ m =>
        simp only [List.set, List.getD_cons_succ, List.length_cons, ih]
        by_cases h : n = m ∧ n < as.length
        · simp [h.1, h.2, Nat.succ_lt_succ h.2]
        · rw [if_neg h, if_neg]
          omega

theorem getD_replicate_none (n i : Nat) :
    (List.replicate n (none : Option SocketConnection)).getD i none = none := by
  induction n generalizing i with
  | zero => simp
  | succ m ih =>
    cases i with
    | zero => simp [List.replicate]
    | succ j => simp [List.replicate, ih]

theorem Slab.count_le_length (s : Slab) : s.count ≤ s.slots.length := by
  exact List.length_filter_le _ _

theorem Slab.get_some (s : Slab) (t : Nat) (c : SocketConnection)
    (h : s.get t = some c) : t ≠ 0 ∧ t - 1 < s.slots.length := by
  unfold Slab.get at h
  by_cases h0 : t = 0
  · simp [h0] at h
  · refine ⟨h0, ?_⟩
    by_cases hl : t - 1 < s.slots.length
    · exact hl
    · rw [if_neg h0, List.getD_eq_default] at h
      · exact absurd h (by simp)
      · omega

theorem Slab.get_setTok_self (s : Slab) (t : Nat) (c : SocketConnection)
    (h0 : t ≠ 0) (hl : t - 1 < s.slots.length) :
    (s.setTok t c).get t = some c := by
  unfold Slab.get Slab.setTok
  simp only [h0, if_false, getD_set]
  simp [hl]

theorem Slab.get_setTok_ne (s : Slab) (t t' : Nat) (c : SocketConnection)
    (ht0 : t ≠ 0) (hne : t' ≠ t) : (s.setTok t c).get t' = s.get t' := by
  unfold Slab.get Slab.setTok
  by_cases h0 : t' = 0
  · simp [h0]
  · simp only [h0, if_false, getD_set]
    rw [if_neg]
    rintro ⟨h1, -⟩
    exact hne (by omega)

theorem Slab.get_remove (s : Slab) (t t' : Nat) (c : SocketConnection)
    (ht0 : t ≠ 0) (h : (s.remove t).get t' = some c) : t' ≠ t ∧ s.get t' = some c := by
  have h0 : t' ≠ 0 := by
    intro h0
    rw [Slab.get, if_pos h0] at h
    exact absurd h (by simp)
  rw [Slab.get, if_neg h0, show (s.remove t).slots = s.slots.set (t - 1) none from rfl,
    getD_set] at h
  by_cases heq : t - 1 = t' - 1 ∧ t - 1 < s.slots.length
  · rw [if_pos heq] at h
    exact absurd h (by simp)
  · rw [if_neg heq] at h
    refine ⟨?_, by rw [Slab.get, if_neg h0]; exact h⟩
    rintro rfl
    by_cases hl : t' - 1 < s.slots.length
    · exact heq ⟨rfl, hl⟩
    · rw [List.getD_eq_default] at h
      · exact absurd h (by simp)
      · omega

theorem batchLoop_eq (handler : Handler) (reqs : List (List Byte)) :
    batchLoop handler reqs = (reqs, (reqs.filterMap handler).flatten) := by
  induction reqs with
  | nil => simp [batchLoop]
  | cons m rest ih =>
    cases hm : handler m with
    | none => simp [batchLoop, hm, ih, List.filterMap_cons]
    | some r => simp [batchLoop, hm, ih, List.filterMap_cons]

theorem extractFrom_none (F : Framing) (s : List Byte) (h : F.frame s = none) :
    extractFrom F s = ([], 0) := by
  rw [extractFrom]
  split
  · rfl
  · next n hf => rw [h] at hf; cases hf

theorem extractFrom_some (F : Framing) (s : List Byte) (n : Nat) (h : F.frame s = some n) :
    extractFrom F s =
      (s.take n :: (extractFrom F (s.drop n)).1, n + (extractFrom F (s.drop n)).2) := by
  rw [extractFrom]
  split
  · next hf => rw [h] at hf; cases hf
  · next m hf =>
    rw [h] at hf
    cases hf
    rfl

theorem extractFrom_pos (F : Framing) (s : List Byte)
    (h : (extractFrom F s).1 ≠ []) : 1 ≤ (extractFrom F s).2 := by
  cases hf : F.frame s with
  | none => rw [extractFrom_none F s hf] at h; simp at h
  | some n =>
    rw [extractFrom_some F s n hf]
    have := F.frame_pos s n hf
    simp
    omega

theorem extractFrom_nil_zero (F : Framing) (s : List Byte)
    (h : (extractFrom F s).1 = []) : (extractFrom F s).2 = 0 := by
  cases hf : F.frame s with
  | none => rw [extractFrom_none F s hf]
  | some n => rw [extractFrom_some F s n hf] at h; simp at h

/-- Idempotence on the unconsumed suffix: re-invoking extraction on the
leftover bytes (with no new data) finds nothing — the contract's
"idempotent when re-invoked with the same unconsumed suffix". -/
theorem extractFrom_leftover (F : Framing) (s : List Byte) :
    extractFrom F (s.drop (extractFrom F s).2) = ([], 0) := by
  cases hf : F.frame s with
  | none =>
    rw [extractFrom_none F s hf]
    simpa using extractFrom_none F s hf
  | some n =>
    have hp := F.frame_pos s n hf
    rw [extractFrom_some F s n hf]
    have ih := extractFrom_leftover F (s.drop n)
    rw [List.drop_drop] at ih
    simpa using ih
termination_by s.length
decreasing_by
  simp only [List.length_drop]
  omega

/-- The consumed bytes are exactly the extracted messages, concatenated —
the contract's "never claim to consume bytes belonging to an incomplete
message": consumption stops exactly at the last complete-message
boundary. -/
theorem extractFrom_take (F : Framing) (s : List Byte) :
    s.take (extractFrom F s).2 = (extractFrom F s).1.flatten := by
  cases hf : F.frame s with
  | none => rw [extractFrom_none F s hf]; simp
  | some n =>
    have hp := F.frame_pos s n hf
    rw [extractFrom_some F s n hf]
    have ih := extractFrom_take F (s.drop n)
    show s.take (n + (extractFrom F (s.drop n)).2) = _
    rw [List.take_add, ih]
    simp [List.flatten_cons]
termination_by s.length
decreasing_by
  simp only [List.length_drop]
  omega

/-- Composition: extracting from `s ++ t` yields the messages of `s`
followed by the messages of `s`'s leftover with `t` appended, and the
consumed counts add up. -/
theorem extractFrom_append (F : Framing) (s t : List Byte) :
    extractFrom F (s ++ t) =
      ((extractFrom F s).1 ++ (extractFrom F (s.drop (extractFrom F s).2 ++ t)).1,
        (extractFrom F s).2 + (extractFrom F (s.drop (extractFrom F s).2 ++ t)).2) := by
  cases hf : F.frame s with
  | none =>
    rw [extractFrom_none F s hf]
    simp
  | some n =>
    have hp := F.frame_pos s n hf
    have hst := F.frame_stable s t n hf
    rw [extractFrom_some F s n hf, extractFrom_some F (s ++ t) n hst,
      List.drop_append_of_le_length hp.2, List.take_append_of_le_length hp.2]
    have ih := extractFrom_append F (s.drop n) t
    rw [ih, List.drop_drop]
    simp [Nat.add_assoc, Nat.add_comm]
termination_by s.length
decreasing_by
  simp only [List.length_drop]
  omega

/-- One readable event, through the framing-based extractor: the dispatch
trace is exactly the extracted message list, and the retained request
buffer is exactly the unconsumed suffix. -/
theorem readable_trace (F : Framing) (handler : Handler) (c : SocketConnection)
    (d : List Byte) :
    (c.readable F.extract_requests handler (.bytesRead d)).2 =
        (extractFrom F (c.request ++ d)).1 ∧
      (c.readable F.extract_requests handler (.bytesRead d)).1.request =
        (c.request ++ d).drop (extractFrom F (c.request ++ d)).2 := by
  rcases hx : extractFrom F (c.request ++ d) with ⟨msgs, k⟩
  cases msgs with
  | nil =>
    have hz : k = 0 := by
      have h := extractFrom_nil_zero F (c.request ++ d) (by rw [hx])
      rw [hx] at h
      exact h
    subst hz
    simp [SocketConnection.readable, Framing.extract_requests, hx]
  | cons m ms =>
    have h1 : 1 ≤ k := by
      have h := extractFrom_pos F (c.request ++ d) (by rw [hx]; simp)
      rw [hx] at h
      exact h
    have hk : k - 1 + 1 = k := by omega
    simp [SocketConnection.readable, Framing.extract_requests, hx, batchLoop_eq, hk]

/-! ## Token-field invariant machinery -/

theorem readable_token (extract : Extract) (handler : Handler)
    (c : SocketConnection) (r : ReadResult) :
    (c.readable extract handler r).1.token = c.token := by
  unfold SocketConnection.readable
  cases r with
  | wouldBlock => rfl
  | bytesRead bytes =>
    simp only []
    split
    · rfl
    · rfl
  | ioError => rfl

theorem writable_token_ok (c : SocketConnection) (wr : WriteResult)
    (out : SocketConnection × List Byte) (h : c.writable wr = .ok out) :
    out.1.token = c.token := by
  unfold SocketConnection.writable at h
  split at h
  · split at h
    · cases wr with
      | ok => cases h; rfl
      | ioError => cases h
    · cases wr with
      | ok => cases h; rfl
      | ioError => cases h
  · cases h; rfl

theorem writable_token_err (c cerr : SocketConnection) (wr : WriteResult)
    (h : c.writable wr = .error cerr) : cerr.token = c.token := by
  unfold SocketConnection.writable at h
  split at h
  · split at h
    · cases wr with
      | ok => cases h
      | ioError => cases h; rfl
    · cases wr with
      | ok => cases h
      | ioError => cases h; rfl
  · cases h

theorem tokenOk_start : TokenOk RpcServer.start := by
  intro t c h
  unfold RpcServer.start Slab.get Slab.new at h
  by_cases h0 : t = 0
  · simp [h0] at h
  · rw [if_neg h0, getD_replicate_none] at h
    cases h

theorem tokenOk_setTok (st : RpcServer) (tokens' : List Token) (t : Nat)
    (c : SocketConnection) (ht : t ≠ 0) (hc : c.token = some t) (H : TokenOk st) :
    TokenOk { connections := st.connections.setTok t c, tokens := tokens' } := by
  intro t' c' h
  by_cases he : t' = t
  · subst he
    by_cases hl : t' - 1 < st.connections.slots.length
    · rw [Slab.get_setTok_self st.connections t' c ht hl] at h
      cases h
      exact hc
    · unfold Slab.get Slab.setTok at h
      rw [if_neg ht, getD_set, if_neg (by rintro ⟨-, hx⟩; exact hl hx)] at h
      exact H t' c' (by rw [Slab.get, if_neg ht]; exact h)
  · rw [Slab.get_setTok_ne st.connections t t' c ht he] at h
    exact H t' c' h

theorem firstFree_lt_length (l : List (Option SocketConnection)) (i : Nat)
    (h : firstFree l = some i) : i < l.length := by
  induction l generalizing i with
  | nil => cases h
  | cons a as ih =>
    cases a with
    | none =>
      unfold firstFree at h
      cases h
      simp
    | some c =>
      unfold firstFree at h
      cases hr : firstFree as with
      | none => rw [hr] at h; cases h
      | some j =>
        rw [hr] at h
        cases h
        have := ih j hr
        simp
        omega

theorem accept_cases (st : RpcServer) :
    (MAX_CONCURRENT_CONNECTIONS ≤ st.connections.count ∧
      st.accept = (st, .closedWithoutResponse)) ∨
    (st.connections.count < MAX_CONCURRENT_CONNECTIONS ∧
      ∃ i, firstFree st.connections.slots = some i ∧
        st.accept =
          ({ connections := st.connections.setTok (i + 1)
              { SocketConnection.new with token := some (i + 1) },
             tokens := st.tokens ++ [i + 1] },
            .registered (i + 1))) ∨
    (st.connections.count < MAX_CONCURRENT_CONNECTIONS ∧
      firstFree st.connections.slots = none ∧ st.accept = (st, .insertFailed)) := by
  unfold RpcServer.accept
  by_cases hcap : st.connections.count ≥ MAX_CONCURRENT_CONNECTIONS
  · left
    exact ⟨hcap, by rw [if_pos hcap]⟩
  · right
    have hlt : st.connections.count < MAX_CONCURRENT_CONNECTIONS := by omega
    cases hff : firstFree st.connections.slots with
    | none =>
      right
      refine ⟨hlt, rfl, ?_⟩
      rw [if_neg hcap]
      unfold Slab.insert
      rw [hff]
    | some i =>
      left
      refine ⟨hlt, i, rfl, ?_⟩
      rw [if_neg hcap]
      unfold Slab.insert
      rw [hff]
      unfold Slab.setTok
      simp [List.set_set]

theorem tokenOk_accept (st : RpcServer) (H : TokenOk st) : TokenOk st.accept.1 := by
  rcases accept_cases st with ⟨-, he⟩ | ⟨-, i, hff, he⟩ | ⟨-, -, he⟩
  · rw [he]; exact H
  · rw [he]
    exact tokenOk_setTok st _ (i + 1) _ (by omega) rfl H
  · rw [he]; exact H

theorem tokenOk_remove (st : RpcServer) (tok : Nat) (htok : tok ≠ 0) (H : TokenOk st) :
    TokenOk (st.drop_connection tok) := by
  intro t c h
  have hr := Slab.get_remove st.connections tok t c htok h
  exact H t c hr.2

theorem tokenOk_readyReadable (extract : Extract) (handler : Handler) (st : RpcServer)
    (token : Nat) (events : EventSet) (env : Oracle) (H : TokenOk st) :
    TokenOk (st.readyReadable extract handler token events env) := by
  unfold RpcServer.readyReadable
  by_cases hr : events.readable = true
  · rw [if_pos hr]
    by_cases hs : token = SERVER
    · rw [if_pos hs]
      exact tokenOk_accept st H
    · rw [if_neg hs]
      cases hg : st.connections.get token with
      | none => exact H
      | some c =>
        have htok : c.token = some token := H token c hg
        have h0 : token ≠ 0 := hs
        exact tokenOk_setTok st _ token _ h0
          (by rw [readable_token]; exact htok) H
  · rw [if_neg hr]; exact H

theorem tokenOk_readyHup (st : RpcServer) (token : Nat) (events : EventSet)
    (H : TokenOk st) : TokenOk (st.readyHup token events) := by
  unfold RpcServer.readyHup
  by_cases hh : events.hup = true
  · rw [if_pos hh]
    by_cases hs : token = SERVER
    · rw [if_pos hs]; exact H
    · rw [if_neg hs]
      exact tokenOk_remove st token hs H
  · rw [if_neg hh]; exact H

theorem tokenOk_readyWritable (st : RpcServer) (token : Nat) (events : EventSet)
    (env : Oracle) (H : TokenOk st) : TokenOk (st.readyWritable token events env) := by
  unfold RpcServer.readyWritable
  by_cases hw : events.writable = true
  · rw [if_pos hw]
    by_cases hs : token = SERVER
    · rw [if_pos hs]; exact H
    · rw [if_neg hs]
      split
      · next c hg =>
        have htok : c.token = some token := H token c hg
        have h0 : token ≠ 0 := hs
        split
        · next cw hwr =>
            exact tokenOk_setTok st _ token _ h0
              (by rw [writable_token_ok c env.write cw hwr]; exact htok) H
        · next cerr hwr =>
            exact tokenOk_setTok st _ token _ h0
              (by rw [writable_token_err c cerr env.write hwr]; exact htok) H
      · next hg => exact H
  · rw [if_neg hw]; exact H

theorem tokenOk_ready (extract : Extract) (handler : Handler) (st : RpcServer)
    (token : Nat) (events : EventSet) (env : Oracle) (H : TokenOk st) :
    TokenOk (st.ready extract handler token events env) := by
  unfold RpcServer.ready
  exact tokenOk_readyWritable _ token events env
    (tokenOk_readyHup _ token events
      (tokenOk_readyReadable extract handler st token events env H))

theorem reachable_tokenOk (extract : Extract) (handler : Handler) (st : RpcServer)
    (h : Reachable extract handler st) : TokenOk st := by
  induction h with
  | init => exact tokenOk_start
  | step st' token events env _ ih => exact tokenOk_ready extract handler st' token events env ih

theorem accept_slots_length (st : RpcServer) :
    st.accept.1.connections.slots.length = st.connections.slots.length := by
  rcases accept_cases st with ⟨-, he⟩ | ⟨-, i, hff, he⟩ | ⟨-, -, he⟩
  · rw [he]
  · rw [he]
    simp [Slab.setTok]
  · rw [he]

/-! ## Write-drain machinery -/

theorem writable_small (c : SocketConnection) (buf : List Byte)
    (h : c.write_buf = some buf) (hlt : buf.length < MAX_WRITE_LENGTH) :
    c.writable .ok = .ok
      ({ c with
          write_buf := none
          interest := (c.interest.remove EventSet.writableSet).insert EventSet.readableSet },
        buf) := by
  unfold SocketConnection.writable
  rw [h]
  simp [hlt]

theorem writable_big (c : SocketConnection) (buf : List Byte)
    (h : c.write_buf = some buf) (hge : ¬ buf.length < MAX_WRITE_LENGTH) :
    c.writable .ok = .ok
      ({ c with write_buf := some (buf.drop MAX_WRITE_LENGTH) },
        buf.take MAX_WRITE_LENGTH) := by
  unfold SocketConnection.writable
  rw [h]
  simp [hge]

theorem writeChunks_flatten (buf : List Byte) : (writeChunks buf).flatten = buf := by
  by_cases h : buf.length < MAX_WRITE_LENGTH
  · rw [writeChunks, if_pos h]
    simp
  · rw [writeChunks, if_neg h]
    have ih := writeChunks_flatten (buf.drop MAX_WRITE_LENGTH)
    simp [ih, List.take_append_drop]
termination_by buf.length
decreasing_by
  simp only [List.length_drop]
  simp only [MAX_WRITE_LENGTH] at *
  omega

theorem writeChunks_le (buf w : List Byte) (hw : w ∈ writeChunks buf) :
    w.length ≤ MAX_WRITE_LENGTH := by
  by_cases h : buf.length < MAX_WRITE_LENGTH
  · rw [writeChunks, if_pos h] at hw
    simp at hw
    subst hw
    omega
  · rw [writeChunks, if_neg h] at hw
    rcases List.mem_cons.mp hw with he | hm
    · subst he
      simp [List.length_take]
    · exact writeChunks_le (buf.drop MAX_WRITE_LENGTH) w hm
termination_by buf.length
decreasing_by
  simp only [List.length_drop]
  simp only [MAX_WRITE_LENGTH] at *
  omega

theorem drainSteps_spec (buf : List Byte) (c : SocketConnection)
    (h : c.write_buf = some buf) :
    drainSteps c (writeChunks buf).length =
      (writeChunks buf,
        { c with
            write_buf := none
            interest := (c.interest.remove EventSet.writableSet).insert EventSet.readableSet }) := by
  by_cases hlt : buf.length < MAX_WRITE_LENGTH
  · rw [writeChunks, if_pos hlt]
    show drainSteps c 1 = _
    unfold drainSteps
    rw [writable_small c buf h hlt]
    simp [drainSteps]
  · rw [writeChunks, if_neg hlt]
    show drainSteps c ((writeChunks (buf.drop MAX_WRITE_LENGTH)).length + 1) = _
    unfold drainSteps
    rw [writable_big c buf h hlt]
    have ih := drainSteps_spec (buf.drop MAX_WRITE_LENGTH)
      { c with write_buf := some (buf.drop MAX_WRITE_LENGTH) } rfl
    simp only []
    rw [ih]
termination_by buf.length
decreasing_by
  simp only [List.length_drop]
  simp only [MAX_WRITE_LENGTH] at *
  omega

theorem drainSteps_partial (k : Nat) (buf : List Byte) (c : SocketConnection)
    (h : c.write_buf = some buf) (hk : k < (writeChunks buf).length) :
    (drainSteps c k).2.write_buf = some (buf.drop (MAX_WRITE_LENGTH * k)) ∧
    (drainSteps c k).2.interest = c.interest := by
  induction k generalizing c buf with
  | zero => simp [drainSteps, h]
  | succ k ih =>
    have hge : ¬ buf.length < MAX_WRITE_LENGTH := by
      intro hlt
      rw [writeChunks, if_pos hlt] at hk
      simp at hk
    rw [writeChunks, if_neg hge] at hk
    unfold drainSteps
    rw [writable_big c buf h hge]
    have hrec := ih (buf.drop MAX_WRITE_LENGTH)
      { c with write_buf := some (buf.drop MAX_WRITE_LENGTH) } rfl
      (by simpa using Nat.lt_of_succ_lt_succ hk)
    simp only [] at hrec ⊢
    rw [List.drop_drop] at hrec
    have harith : MAX_WRITE_LENGTH + MAX_WRITE_LENGTH * k = MAX_WRITE_LENGTH * (k + 1) := by
      ring
    rw [harith] at hrec
    exact hrec

/-! ## Count lemmas -/

theorem count_replicate_some (n : Nat) (c : SocketConnection) :
    Slab.count ⟨List.replicate n (some c)⟩ = n := by
  induction n with
  | zero => rfl
  | succ m ih =>
    unfold Slab.count at ih ⊢
    simp only [List.replicate_succ, List.filter_cons]
    simp [ih]

theorem filter_isSome_length_set (l : List (Option SocketConnection)) (i : Nat)
    (x c : SocketConnection) (h : l.getD i none = some c) :
    ((l.set i (some x)).filter Option.isSome).length =
      (l.filter Option.isSome).length := by
  induction l generalizing i with
  | nil => simp
  | cons a as ih =>
    cases i with
    | zero =>
      simp only [List.getD_cons_zero] at h
      subst h
      simp [List.filter_cons]
    | succ j =>
      simp only [List.getD_cons_succ] at h
      simp only [List.set, List.filter_cons]
      cases a.isSome <;> simp [ih j h]

theorem Slab.count_setTok_some (s : Slab) (t : Nat) (x c : SocketConnection)
    (h : s.get t = some c) : (s.setTok t x).count = s.count := by
  have h0 : t ≠ 0 := (Slab.get_some s t c h).1
  rw [Slab.get, if_neg h0] at h
  unfold Slab.count Slab.setTok
  exact filter_isSome_length_set s.slots (t - 1) x c h

theorem bigBuf_length : bigBuf.length = MAX_WRITE_LENGTH + 1 := by
  unfold bigBuf
  exact List.length_replicate _ _

theorem bigBuf_drop : bigBuf.drop MAX_WRITE_LENGTH = [0] := by
  unfold bigBuf
  rw [List.drop_replicate]
  have h1 : MAX_WRITE_LENGTH + 1 - MAX_WRITE_LENGTH = 1 := by omega
  rw [h1]
  rfl

theorem bigBuf_take : bigBuf.take MAX_WRITE_LENGTH = List.replicate MAX_WRITE_LENGTH 0 := by
  unfold bigBuf
  rw [List.take_replicate]
  rw [Nat.min_eq_left (Nat.le_succ _)]

theorem writeChunks_bigBuf : writeChunks bigBuf = [List.replicate MAX_WRITE_LENGTH 0, [0]] := by
  have hlen : ¬ bigBuf.length < MAX_WRITE_LENGTH := by
    rw [bigBuf_length]
    omega
  rw [writeChunks, if_neg hlen, bigBuf_drop, bigBuf_take, writeChunks,
    if_pos (by simp [MAX_WRITE_LENGTH])]

/-! ## Claim theorems -/

/-- C1: an accept event arriving when the connection table already holds
capacity (1024) live connections leaves the whole server state unchanged
— the freshly built connection is discarded without being registered and
without any byte being written to it, so existing connections are
unaffected — and for any table of the slab's fixed 1024-slot shape the
live-entry count after an accept never exceeds capacity. -/
theorem accept_at_capacity (st st' : RpcServer)
    (h : MAX_CONCURRENT_CONNECTIONS ≤ st.connections.count)
    (hlen : st'.connections.slots.length = MAX_CONCURRENT_CONNECTIONS) :
    st.accept = (st, AcceptEffect.closedWithoutResponse) ∧
    st'.connections.count ≤ MAX_CONCURRENT_CONNECTIONS ∧
    st'.accept.1.connections.count ≤ MAX_CONCURRENT_CONNECTIONS := by
  refine ⟨?_, ?_, ?_⟩
  · rcases accept_cases st with ⟨-, he⟩ | ⟨hlt, -⟩ | ⟨hlt, -, -⟩
    · exact he
    · omega
    · omega
  · calc st'.connections.count ≤ st'.connections.slots.length :=
          Slab.count_le_length st'.connections
      _ = MAX_CONCURRENT_CONNECTIONS := hlen
  · calc st'.accept.1.connections.count
        ≤ st'.accept.1.connections.slots.length :=
          Slab.count_le_length st'.accept.1.connections
      _ = st'.connections.slots.length := accept_slots_length st'
      _ = MAX_CONCURRENT_CONNECTIONS := hlen

/-- Witness for accept_at_capacity: the full 1024-connection server. -/
theorem accept_at_capacity_witness :
    MAX_CONCURRENT_CONNECTIONS ≤ fullServer.connections.count ∧
    (fullServer.accept = (fullServer, AcceptEffect.closedWithoutResponse) ∧
      fullServer.connections.count ≤ MAX_CONCURRENT_CONNECTIONS ∧
      fullServer.accept.1.connections.count ≤ MAX_CONCURRENT_CONNECTIONS) :=
  have hcount : fullServer.connections.count = MAX_CONCURRENT_CONNECTIONS :=
    count_replicate_some MAX_CONCURRENT_CONNECTIONS SocketConnection.new
  ⟨le_of_eq hcount.symm,
    accept_at_capacity fullServer fullServer (le_of_eq hcount.symm)
      (List.length_replicate MAX_CONCURRENT_CONNECTIONS (some SocketConnection.new))⟩

set_option maxRecDepth 100000 in
/-- C2 (code bug): a writable event whose write attempt returns a genuine
I/O error does not close or remove the connection: the dispatch loop
discards the error (`unwrap_or_else(|_| {})`, marked `todo` in the
source) and the connection — its pending buffer already consumed by
`write_buf.take()` — still holds its table slot afterwards. -/
theorem write_error_connection_lingers :
    (stW.ready ex0 hand0 1 ⟨false, true, false⟩
        { read := .wouldBlock, write := .ioError }).connections.get 1 =
      some { connW with write_buf := none } ∧
    (stW.ready ex0 hand0 1 ⟨false, true, false⟩
        { read := .wouldBlock, write := .ioError }).connections.count =
      stW.connections.count :=
  ⟨rfl, rfl⟩

set_option maxRecDepth 100000 in
/-- C3 counterexample: a readable event whose read returns a genuine I/O
error does not close or remove the connection: it remains in the table
(count unchanged) with only hangup interest armed. -/
theorem read_error_not_removed_counterexample :
    (stR.ready ex0 hand0 1 ⟨true, false, false⟩
        { read := .ioError, write := .ok }).connections.get 1 =
      some { connR with interest := ⟨false, false, true⟩ } ∧
    (stR.ready ex0 hand0 1 ⟨true, false, false⟩
        { read := .ioError, write := .ok }).connections.count =
      stR.connections.count :=
  ⟨rfl, rfl⟩

/-- C3 (amended): on a genuine read error the dispatch loop swallows the
error and keeps the connection registered: it stays in the table at its
slot (count unchanged) with its readable interest removed, so it remains
armed only for hangup and is reclaimed only when a hangup event arrives. -/
theorem read_error_connection_remains (extract : Extract) (handler : Handler)
    (st : RpcServer) (t : Nat) (c : SocketConnection) (env : Oracle)
    (ht : t ≠ SERVER) (hget : st.connections.get t = some c)
    (henv : env.read = .ioError) :
    (st.ready extract handler t ⟨true, false, false⟩ env).connections.get t =
      some { c with interest := c.interest.remove EventSet.readableSet } ∧
    (st.ready extract handler t ⟨true, false, false⟩ env).connections.count =
      st.connections.count := by
  obtain ⟨h0, hl⟩ := Slab.get_some st.connections t c hget
  have hres : st.ready extract handler t ⟨true, false, false⟩ env =
      { st with connections := st.connections.setTok t { c with interest := c.interest.remove EventSet.readableSet } } := by
    unfold RpcServer.ready RpcServer.readyReadable RpcServer.readyHup
      RpcServer.readyWritable
    simp [ht, hget, SocketConnection.readable, henv]
  rw [hres]
  exact ⟨Slab.get_setTok_self st.connections t _ h0 hl,
    Slab.count_setTok_some st.connections t _ c hget⟩

set_option maxRecDepth 100000 in
/-- Witness for read_error_connection_remains at the concrete state stR. -/
theorem read_error_connection_remains_witness :
    (stR.ready exW handW 1 ⟨true, false, false⟩
        { read := .ioError, write := .ok }).connections.get 1 =
      some { connR with interest := connR.interest.remove EventSet.readableSet } ∧
    (stR.ready exW handW 1 ⟨true, false, false⟩
        { read := .ioError, write := .ok }).connections.count =
      stR.connections.count :=
  read_error_connection_remains exW handW stR 1 connR
    { read := .ioError, write := .ok } (by decide) rfl rfl

/-- C4 counterexample: a readable event whose whole extracted batch is
notifications (no response text) sets the pending write buffer to `Some`
of the empty byte sequence — present, not absent — and switches interest
to awaiting-writable instead of returning to awaiting-readable. -/
theorem notification_write_buf_counterexample :
    ((SocketConnection.new).readable exN hand0 (.bytesRead [9])).1.write_buf =
      some [] ∧
    ((SocketConnection.new).readable exN hand0 (.bytesRead [9])).1.write_buf ≠
      none ∧
    ((SocketConnection.new).readable exN hand0
        (.bytesRead [9])).1.interest.writable = true ∧
    ((SocketConnection.new).readable exN hand0
        (.bytesRead [9])).1.interest.readable = false := by
  decide

/-- C4 (amended): after a readable event extracting a non-empty batch the
write buffer is set to `Some` of the concatenated responses even when
that concatenation is empty (an all-notification batch yields `Some []`
and interest still switches to awaiting-writable); starting from an
awaiting-readable state with no pending buffer, the buffer is present
afterwards iff the extracted batch was non-empty — not iff a response is
queued. -/
theorem write_buf_presence (extract : Extract) (handler : Handler)
    (c : SocketConnection) (data : List Byte) (reqs : List (List Byte)) (li : Nat)
    (hx : extract (c.request ++ data) = (reqs, li)) (hw : c.write_buf = none) :
    ((c.readable extract handler (.bytesRead data)).1.write_buf.isSome = true ↔
      reqs ≠ []) ∧
    (reqs ≠ [] → reqs.filterMap handler = [] →
      (c.readable extract handler (.bytesRead data)).1.write_buf = some [] ∧
      (c.readable extract handler (.bytesRead data)).1.interest.writable = true ∧
      (c.readable extract handler (.bytesRead data)).1.interest.readable = false) := by
  cases reqs with
  | nil =>
    simp only [SocketConnection.readable, hx]
    simp [hw]
  | cons m ms =>
    simp only [SocketConnection.readable, hx]
    constructor
    · simp
    · intro hne hfm
      simp [batchLoop_eq, hfm, EventSet.insert, EventSet.remove,
        EventSet.readableSet, EventSet.writableSet]

/-- Witness for write_buf_presence: an all-notification batch. -/
theorem write_buf_presence_witness :
    (((SocketConnection.new).readable exN hand0
          (.bytesRead [9])).1.write_buf.isSome = true ↔ ([[9]] : List (List Byte)) ≠ []) ∧
    (([[9]] : List (List Byte)) ≠ [] → ([[9]] : List (List Byte)).filterMap hand0 = [] →
      ((SocketConnection.new).readable exN hand0 (.bytesRead [9])).1.write_buf = some [] ∧
      ((SocketConnection.new).readable exN hand0
          (.bytesRead [9])).1.interest.writable = true ∧
      ((SocketConnection.new).readable exN hand0
          (.bytesRead [9])).1.interest.readable = false) :=
  write_buf_presence exN hand0 SocketConnection.new [9] [[9]] 0 rfl rfl

/-- C5 counterexample: a successful `stop()` from the running state leaves
the flag pair (stopped = true, stopping = true), and a subsequent
`run_async()` fails with `IsStopping` instead of succeeding. -/
theorem run_async_after_stop_counterexample :
    (stop { is_stopping := false, is_stopped := false }).1 = .ok () ∧
    (stop { is_stopping := false, is_stopped := false }).2 =
      { is_stopping := true, is_stopped := true } ∧
    (run_async (stop { is_stopping := false, is_stopped := false }).2).1 =
      .error .isStopping := by
  decide

/-- C5 (amended): the flag pair (stopped = true, stopping = true) reached
when a drain completes is never reset — no lifecycle operation clears
`is_stopping` — so after a successful `stop()` a subsequent `run_async()`
fails with `IsStopping`, leaving the flags unchanged. -/
theorem stopping_flag_persists (f g : LifecycleFlags)
    (hf1 : f.is_stopping = false) (hf2 : f.is_stopped = false)
    (hg : g.is_stopping = true) :
    (stop f).1 = .ok () ∧
    (stop f).2 = { is_stopping := true, is_stopped := true } ∧
    (run_async g).2.is_stopping = true ∧
    (stop_async g).2.is_stopping = true ∧
    (stop g).2.is_stopping = true ∧
    (workerExit g).is_stopping = true ∧
    run_async { is_stopping := true, is_stopped := true } =
      (.error .isStopping, { is_stopping := true, is_stopped := true }) := by
  obtain ⟨a, b⟩ := f
  obtain ⟨p, q⟩ := g
  cases a <;> cases b <;> cases p <;> cases q <;> revert hf1 hf2 hg <;> decide

/-- Witness for stopping_flag_persists at the running and drained states. -/
theorem stopping_flag_persists_witness :
    (stop { is_stopping := false, is_stopped := false }).1 = .ok () ∧
    (stop { is_stopping := false, is_stopped := false }).2 =
      { is_stopping := true, is_stopped := true } ∧
    (run_async { is_stopping := true, is_stopped := true }).2.is_stopping = true ∧
    (stop_async { is_stopping := true, is_stopped := true }).2.is_stopping = true ∧
    (stop { is_stopping := true, is_stopped := true }).2.is_stopping = true ∧
    (workerExit { is_stopping := true, is_stopped := true }).is_stopping = true ∧
    run_async { is_stopping := true, is_stopped := true } =
      (.error .isStopping, { is_stopping := true, is_stopped := true }) :=
  stopping_flag_persists { is_stopping := false, is_stopped := false }
    { is_stopping := true, is_stopped := true } rfl rfl rfl

/-- C6: a batch of complete request texts extracted from one read is
dispatched to the handler exactly once per request, in arrival order (the
dispatch trace is the extracted request list itself), and the pending
write buffer receives the responses — notifications omitted —
concatenated in the same request order. -/
theorem pipelining_batch (extract : Extract) (handler : Handler)
    (c : SocketConnection) (data : List Byte) (reqs : List (List Byte)) (li : Nat)
    (hx : extract (c.request ++ data) = (reqs, li)) (hne : reqs ≠ []) :
    (c.readable extract handler (.bytesRead data)).2 = reqs ∧
    (c.readable extract handler (.bytesRead data)).1.write_buf =
      some ((reqs.filterMap handler).flatten) := by
  have hpos : reqs.length > 0 := List.length_pos.mpr hne
  simp only [SocketConnection.readable, hx]
  simp [hpos, batchLoop_eq]

/-- Witness for pipelining_batch: a two-request batch, one normal and one
notification. -/
theorem pipelining_batch_witness :
    ((SocketConnection.new).readable exW handW (.bytesRead [1, 2])).2 =
      [[1], [2]] ∧
    ((SocketConnection.new).readable exW handW (.bytesRead [1, 2])).1.write_buf =
      some [7, 8] :=
  have h := pipelining_batch exW handW SocketConnection.new [1, 2] [[1], [2]] 1
    rfl (by decide)
  ⟨h.1, by rw [h.2]; rfl⟩

/-- C7: for a pending write buffer longer than the chunk bound, one
writable event writes exactly the first `MAX_WRITE_LENGTH` bytes and
requeues exactly the remainder; iterating writable events emits the chunk
sequence whose concatenation is the original buffer byte-for-byte, every
written chunk at most `MAX_WRITE_LENGTH` bytes; at every intermediate
event the buffer is still present and the interest unchanged, and only
once the buffer is fully drained does the interest flip back to
awaiting-readable. -/
theorem partial_write_resumption (c : SocketConnection) (buf w : List Byte)
    (k : Nat) (h : c.write_buf = some buf)
    (hbig : MAX_WRITE_LENGTH < buf.length)
    (hk : k < (writeChunks buf).length)
    (hw : w ∈ (drainSteps c (writeChunks buf).length).1) :
    c.writable .ok = .ok
      ({ c with write_buf := some (buf.drop MAX_WRITE_LENGTH) },
        buf.take MAX_WRITE_LENGTH) ∧
    (drainSteps c (writeChunks buf).length).1 = writeChunks buf ∧
    (drainSteps c (writeChunks buf).length).1.flatten = buf ∧
    w.length ≤ MAX_WRITE_LENGTH ∧
    (drainSteps c k).2.write_buf = some (buf.drop (MAX_WRITE_LENGTH * k)) ∧
    (drainSteps c k).2.interest = c.interest ∧
    (drainSteps c (writeChunks buf).length).2.write_buf = none ∧
    (drainSteps c (writeChunks buf).length).2.interest =
      (c.interest.remove EventSet.writableSet).insert EventSet.readableSet := by
  have hge : ¬ buf.length < MAX_WRITE_LENGTH := by omega
  have hspec := drainSteps_spec buf c h
  have hpart := drainSteps_partial k buf c h hk
  refine ⟨writable_big c buf h hge, ?_, ?_, ?_, hpart.1, hpart.2, ?_, ?_⟩
  · rw [hspec]
  · rw [hspec]
    exact writeChunks_flatten buf
  · refine writeChunks_le buf w ?_
    rw [hspec] at hw
    exact hw
  · rw [hspec]
  · rw [hspec]

/-- Witness for partial_write_resumption: an 8193-byte buffer drained in
two chunks. -/
theorem partial_write_resumption_witness :
    chunkyConn.writable .ok = .ok
      ({ chunkyConn with write_buf := some (bigBuf.drop MAX_WRITE_LENGTH) },
        bigBuf.take MAX_WRITE_LENGTH) ∧
    (drainSteps chunkyConn (writeChunks bigBuf).length).1 = writeChunks bigBuf ∧
    (drainSteps chunkyConn (writeChunks bigBuf).length).1.flatten = bigBuf ∧
    ([(0 : Byte)] : List Byte).length ≤ MAX_WRITE_LENGTH ∧
    (drainSteps chunkyConn 1).2.write_buf =
      some (bigBuf.drop (MAX_WRITE_LENGTH * 1)) ∧
    (drainSteps chunkyConn 1).2.interest = chunkyConn.interest ∧
    (drainSteps chunkyConn (writeChunks bigBuf).length).2.write_buf = none ∧
    (drainSteps chunkyConn (writeChunks bigBuf).length).2.interest =
      (chunkyConn.interest.remove EventSet.writableSet).insert
        EventSet.readableSet :=
  partial_write_resumption chunkyConn bigBuf [0] 1 rfl
    (by rw [bigBuf_length]; omega)
    (by rw [writeChunks_bigBuf]; simp)
    (by rw [drainSteps_spec bigBuf chunkyConn rfl, writeChunks_bigBuf]; simp)

/-- C8: through any extraction collaborator induced by a byte-stable
framing (the §6 contract), a byte sequence split into two arbitrary
pieces and delivered across two successive reads dispatches exactly the
same request sequence to the handler as delivering it in one read. -/
theorem framing_split_invariance (F : Framing) (handler : Handler)
    (c : SocketConnection) (a b : List Byte) :
    (readMany F.extract_requests handler c [a, b]).2 =
      (readMany F.extract_requests handler c [a ++ b]).2 := by
  have h1 := readable_trace F handler c a
  have h2 := readable_trace F handler
    (c.readable F.extract_requests handler (.bytesRead a)).1 b
  have h3 := readable_trace F handler c (a ++ b)
  simp only [readMany, List.append_nil]
  rw [h1.1, h3.1, h2.1, h1.2]
  have hc := extractFrom_append F (c.request ++ a) b
  rw [← List.append_assoc, hc]

/-- C9: `stop` and `stop_async` fail with `NotStarted` when already
stopped and with `AlreadyStopping` while a drain is in progress, leaving
the flags unchanged in every error case; from the running state they set
`stopping` and succeed, `run_async` fails with `NotStopped` leaving the
flags unchanged, and calling `stop` twice in a row returns success then
`NotStarted`. -/
theorem stop_lifecycle_matrix (f : LifecycleFlags) :
    (f.is_stopped = true →
      stop f = (.error .notStarted, f) ∧
      stop_async f = (.error .notStarted, f)) ∧
    (f.is_stopped = false → f.is_stopping = true →
      stop f = (.error .alreadyStopping, f) ∧
      stop_async f = (.error .alreadyStopping, f)) ∧
    (f.is_stopped = false → f.is_stopping = false →
      (stop_async f).1 = .ok () ∧ (stop_async f).2.is_stopping = true ∧
      run_async f = (.error .notStopped, f) ∧
      (stop f).1 = .ok () ∧ (stop (stop f).2).1 = .error .notStarted) := by
  obtain ⟨a, b⟩ := f
  cases a <;> cases b <;> decide

/-- Witness for stop_lifecycle_matrix at the three concrete flag states. -/
theorem stop_lifecycle_matrix_witness :
    (stop { is_stopping := false, is_stopped := true } =
        (.error .notStarted, { is_stopping := false, is_stopped := true }) ∧
      stop_async { is_stopping := false, is_stopped := true } =
        (.error .notStarted, { is_stopping := false, is_stopped := true })) ∧
    (stop { is_stopping := true, is_stopped := false } =
        (.error .alreadyStopping, { is_stopping := true, is_stopped := false }) ∧
      stop_async { is_stopping := true, is_stopped := false } =
        (.error .alreadyStopping, { is_stopping := true, is_stopped := false })) ∧
    ((stop_async { is_stopping := false, is_stopped := false }).1 = .ok () ∧
      (stop_async { is_stopping := false, is_stopped := false }).2.is_stopping =
        true ∧
      run_async { is_stopping := false, is_stopped := false } =
        (.error .notStopped, { is_stopping := false, is_stopped := false }) ∧
      (stop { is_stopping := false, is_stopped := false }).1 = .ok () ∧
      (stop (stop { is_stopping := false, is_stopped := false }).2).1 =
        .error .notStarted) :=
  ⟨(stop_lifecycle_matrix { is_stopping := false, is_stopped := true }).1 rfl,
    (stop_lifecycle_matrix { is_stopping := true, is_stopped := false }).2.1 rfl
      rfl,
    (stop_lifecycle_matrix { is_stopping := false, is_stopped := false }).2.2 rfl
      rfl⟩

/-- C10: in every reachable server state, each stored connection's token
field is `Some` of the slot identifier it occupies, so the
`token.unwrap()` performed when re-registering interest after a readable
or writable event cannot fail for a registered connection. -/
theorem token_field_matches_slot (extract : Extract) (handler : Handler)
    (st : RpcServer) (t : Nat) (c : SocketConnection)
    (hr : Reachable extract handler st)
    (hget : st.connections.get t = some c) :
    c.token = some t ∧ c.token.isSome = true := by
  have h := reachable_tokenOk extract handler st hr t c hget
  exact ⟨h, by rw [h]; rfl⟩

set_option maxRecDepth 100000 in
/-- Witness for token_field_matches_slot: the connection accepted first
occupies slot 1 and carries token `some 1`. -/
theorem token_field_matches_slot_witness :
    acceptedServer.connections.get 1 =
      some { SocketConnection.new with token := some 1 } ∧
    (({ SocketConnection.new with token := some 1 } :
        SocketConnection).token = some 1 ∧
      ({ SocketConnection.new with token := some 1 } :
        SocketConnection).token.isSome = true) :=
  ⟨rfl,
    token_field_matches_slot ex0 hand0 acceptedServer 1
      { SocketConnection.new with token := some 1 }
      (Reachable.step RpcServer.start SERVER ⟨true, false, false⟩
        { read := .wouldBlock, write := .ok } Reachable.init)
      rfl⟩

end JsonIpc
